import Mathlib

/-!
Verification of the offline-first sync engine (TypeScript `lib/` tree and the
parallel Kotlin `com.shah.offlinesync` tree) against its specification.

The store is modelled as a list of `RecordEntity` rows; SQL `UPDATE ... WHERE
id = ?` statements become `updateById`, and the asynchronous repository
functions become pure state transformers.  The remote API is an oracle
`String → ApiOutcome` assigning to each record id the outcome of the
`POST /posts` call made for it during a pass.
-/

namespace OfflineSync

/-- Sync status of a record.  The Kotlin `SyncStatus` enum
(`data/local`, part of the Android tree) has all four constructors; the
TypeScript `SyncStatus` type in `lib/data/types.ts` omits `SYNCING`. -/
inductive SyncStatus where
  | PENDING
  | SYNCING
  | SYNCED
  | FAILED
deriving DecidableEq, Repr

/-- The CHECK constraint of the `records` table created by `initDatabase` in
`lib/data/database.ts`: `syncStatus IN ('PENDING', 'SYNCED', 'FAILED')`. -/
def tsSchemaAllows (s : SyncStatus) : Bool :=
  s == .PENDING || s == .SYNCED || s == .FAILED

/-- A row of the `records` table (`RecordEntity` in `lib/data/types.ts` and in
the Kotlin `data/local` entity). -/
structure RecordEntity where
  id : String
  title : String
  body : String
  createdAt : Nat
  syncStatus : SyncStatus
  remoteId : Option Nat
  lastSyncAttempt : Option Nat
  syncError : Option String
deriving DecidableEq, Repr

/-- Model of `ApiErrorType` from `lib/data/api.ts`. -/
inductive ApiErrorType where
  | NETWORK_ERROR
  | TIMEOUT
  | CLIENT_ERROR
  | SERVER_ERROR
  | UNKNOWN_ERROR
deriving DecidableEq, Repr

/-- Model of `ApiError` from `lib/data/api.ts`. -/
structure ApiError where
  type : ApiErrorType
  statusCode : Option Nat
  message : String
deriving DecidableEq, Repr

/-- The transport-level failure that `parseAxiosError` in `lib/data/api.ts`
classifies: either no response was received (with a timeout flag from
`ECONNABORTED`), or an HTTP status arrived, or the thrown value was not an
axios error at all. -/
inductive AxiosFailure where
  | noResponse (timedOut : Bool) (msg : String)
  | httpStatus (status : Nat)
  | nonAxios (msg : String)
deriving DecidableEq, Repr

/-- Model of `parseAxiosError` from `lib/data/api.ts`. -/
def parseAxiosError : AxiosFailure → ApiError
  | .noResponse true _ => ⟨.TIMEOUT, none, "Request timeout"⟩
  | .noResponse false msg => ⟨.NETWORK_ERROR, none, "Network error: " ++ msg⟩
  | .httpStatus status =>
      if 400 ≤ status ∧ status < 500 then
        ⟨.CLIENT_ERROR, some status, "Client error: " ++ toString status⟩
      else if 500 ≤ status then
        ⟨.SERVER_ERROR, some status, "Server error: " ++ toString status⟩
      else
        ⟨.UNKNOWN_ERROR, none, "Unknown error"⟩
  | .nonAxios msg => ⟨.UNKNOWN_ERROR, none, msg⟩

/-- Model of `isRetryableError` from `lib/data/api.ts`: network, timeout or server
errors are retryable. -/
def isRetryableError (e : ApiError) : Bool :=
  e.type == .NETWORK_ERROR || e.type == .TIMEOUT || e.type == .SERVER_ERROR

/-- Model of `isPermanentError` from `lib/data/api.ts`: client (4xx) errors are
permanent. -/
def isPermanentError (e : ApiError) : Bool :=
  e.type == .CLIENT_ERROR

/-- Model of `PostResponseDTO` from `lib/data/types.ts`. -/
structure PostResponseDTO where
  id : Nat
  title : String
  body : String
  userId : Nat
deriving DecidableEq, Repr

/-- Model of `mergePostResponse` from `lib/data/mappers.ts`, with the `Date.now()`
call made explicit as the `now` argument. -/
def mergePostResponse (entity : RecordEntity) (response : PostResponseDTO)
    (now : Nat) : RecordEntity :=
  { entity with
    remoteId := some response.id
    syncStatus := .SYNCED
    lastSyncAttempt := some now
    syncError := none }

/-- Effect on one row of `updateSyncStatus` in `lib/data/database.ts` (and of
the identically shaped `@Query` in the Kotlin `RecordDao`): it overwrites
`syncStatus`, `remoteId` (`null` when the argument is omitted),
`lastSyncAttempt` (always `Date.now()`), and `syncError` (`null` when
omitted). -/
def updateSyncStatusFields (now : Nat) (syncStatus : SyncStatus)
    (remoteId : Option Nat) (syncError : Option String)
    (e : RecordEntity) : RecordEntity :=
  { e with
    syncStatus := syncStatus
    remoteId := remoteId
    lastSyncAttempt := some now
    syncError := syncError }

/-- The persistent store: the rows of the `records` table. -/
abbrev Store := List RecordEntity

/-- A SQL `UPDATE ... WHERE id = ?` applied to the store. -/
def updateById (store : Store) (id : String)
    (f : RecordEntity → RecordEntity) : Store :=
  store.map fun r => if r.id = id then f r else r

/-- Model of `getRecordsByStatus` from `lib/data/database.ts`:
`SELECT * FROM records WHERE syncStatus = ? ORDER BY createdAt DESC`. -/
def getRecordsByStatus (status : SyncStatus) (store : Store) : Store :=
  (store.filter fun r => r.syncStatus == status).insertionSort
    fun a b => b.createdAt ≤ a.createdAt

/-- Model of `initDatabase` from `lib/data/database.ts`.  It runs only
`CREATE TABLE IF NOT EXISTS` and `CREATE INDEX IF NOT EXISTS` statements, so
its effect on the rows already in the store is the identity: no row is read,
rewritten or reset. -/
def initDatabase (store : Store) : Store := store

/-- The guard at the top of `syncRecord` in `lib/data/repository.ts`:
`entity.syncStatus === 'SYNCED' && entity.remoteId !== null` makes the sync
return early without calling the API. -/
def shortCircuitsSynced (e : RecordEntity) : Bool :=
  e.syncStatus == .SYNCED && e.remoteId.isSome

/-- Whether `syncRecord` reaches the `api.createPost` call: exactly when the
already-synced guard does not fire (the record is assumed present, as in the
pass, which only passes ids read from the store). -/
def callsSend (e : RecordEntity) : Bool :=
  !(shortCircuitsSynced e)

/-- Outcome of the `api.createPost` call inside `syncRecord`: a response, a
thrown `ApiError`, or a thrown value that is not an `ApiError` (the
`error instanceof api.ApiError` checks then both fail). -/
inductive ApiOutcome where
  | ok (resp : PostResponseDTO)
  | apiErr (e : ApiError)
  | otherErr (msg : String)
deriving DecidableEq, Repr

/-- Effect of `syncRecord` in `lib/data/repository.ts` on the record it
operates on.  On success it persists `mergePostResponse` via `updateRecord`;
on failure it persists `updateSyncStatus(recordId, isPermanent ? 'FAILED' :
'PENDING', undefined, errorMessage)`. -/
def syncRecordEntity (now : Nat) (outcome : ApiOutcome)
    (e : RecordEntity) : RecordEntity :=
  if shortCircuitsSynced e then e
  else
    match outcome with
    | .ok resp => mergePostResponse e resp now
    | .apiErr err =>
        updateSyncStatusFields now
          (if isPermanentError err then .FAILED else .PENDING)
          none (some err.message) e
    | .otherErr msg =>
        updateSyncStatusFields now .PENDING none (some msg) e

/-- The sequence of `syncStatus` values persisted by one call of the
TypeScript `syncRecord`, in write order.  The function performs at most one
durable write: `updateRecord` with status `SYNCED` on success, or
`updateSyncStatus` with `FAILED`/`PENDING` on failure. -/
def tsSyncRecordWrites (outcome : ApiOutcome) (e : RecordEntity) :
    List SyncStatus :=
  if shortCircuitsSynced e then []
  else
    match outcome with
    | .ok _ => [.SYNCED]
    | .apiErr err => [if isPermanentError err then .FAILED else .PENDING]
    | .otherErr _ => [.PENDING]

/-- Model of `syncPendingRecords` from `lib/data/repository.ts`: read the `PENDING`
records, then call `syncRecord(entity.id)` for each in order (each call
re-fetches the record by id before acting). -/
def syncPass (now : Nat) (outcomes : String → ApiOutcome)
    (store : Store) : Store :=
  (getRecordsByStatus .PENDING store).foldl
    (fun st e => updateById st e.id (syncRecordEntity now (outcomes e.id)))
    store

/-- The fixed inter-record pause in `syncPendingRecords`:
`setTimeout(resolve, 100)` — 100 milliseconds, independent of any attempt
count. -/
def syncPassInterRecordDelayMs : Nat := 100

/-- The requeue loop of `retryFailedSyncs` in `lib/data/repository.ts`: every
`FAILED` record gets `updateSyncStatus(entity.id, 'PENDING')` (remoteId and
error omitted, hence nulled) before any sync is attempted. -/
def requeueFailed (now : Nat) (store : Store) : Store :=
  (getRecordsByStatus .FAILED store).foldl
    (fun st e => updateById st e.id
      (updateSyncStatusFields now .PENDING none none))
    store

/-- Model of `retryFailedSyncs` from `lib/data/repository.ts`: requeue all `FAILED`
records, then run a normal pass. -/
def retryFailedSyncs (nowRequeue nowPass : Nat)
    (outcomes : String → ApiOutcome) (store : Store) : Store :=
  syncPass nowPass outcomes (requeueFailed nowRequeue store)

/-- Embedding of JavaScript `String.prototype.trim()` (used as
`title.trim()` / `body.trim()` in the source): strip leading and trailing
whitespace characters. -/
def jsIsWhitespace (c : Char) : Bool :=
  c == ' ' || c == '\t' || c == '\n' || c == '\r'

/-- JavaScript `.trim()` over the character list of the string. -/
def jsTrim (s : String) : String :=
  ⟨((s.data.dropWhile jsIsWhitespace).reverse.dropWhile jsIsWhitespace).reverse⟩

/-- Model of `validateRecordInput` from `lib/domain/use-cases.ts`, returning the
`ValidationError` message instead of throwing it. -/
def validateRecordInput (title body : String) : Option String :=
  if (jsTrim title).length == 0 then some "Title is required"
  else if (jsTrim title).length > 200 then
    some "Title must be 200 characters or less"
  else if (jsTrim body).length == 0 then some "Body is required"
  else if (jsTrim body).length > 5000 then
    some "Body must be 5000 characters or less"
  else none

/-- The entity built by `createRecord` in `lib/data/repository.ts`: trimmed
content, status `PENDING`, no remote id, no attempt, no error.  The
client-generated UUID and `Date.now()` are explicit arguments. -/
def newRecordEntity (uuid : String) (now : Nat) (title body : String) :
    RecordEntity :=
  { id := uuid
    title := jsTrim title
    body := jsTrim body
    createdAt := now
    syncStatus := .PENDING
    remoteId := none
    lastSyncAttempt := none
    syncError := none }

/-- Result of the create-record use case. -/
inductive CreateResult where
  | ok (r : RecordEntity)
  | err (msg : String)
deriving DecidableEq, Repr

/-- Whether a create-record result is the failure case. -/
def CreateResult.isErr : CreateResult → Bool
  | .err _ => true
  | .ok _ => false

/-- Model of `createRecord` from `lib/domain/use-cases.ts` composed with the
repository `createRecord`: validation happens before any store write; the
`INSERT` aborts on a primary-key conflict. -/
def createRecord (uuid : String) (now : Nat) (title body : String)
    (store : Store) : Store × CreateResult :=
  match validateRecordInput title body with
  | some msg => (store, .err msg)
  | none =>
      if store.any (fun r => r.id == uuid) then
        (store, .err "Failed to insert record")
      else
        (store ++ [newRecordEntity uuid now title body],
          .ok (newRecordEntity uuid now title body))

/-- Modelled from the spec: the Retry Policy of §4.3, whose implementation
(the `SyncWorker` WorkManager configuration on the Android side) is not in
the repository tree — delay = min(base * 2^attemptCount, cap) with base = 1
second and cap = 30 seconds, in milliseconds. -/
def backoffDelayMs (attemptCount : Nat) : Nat :=
  min (1000 * 2 ^ attemptCount) 30000

/-- Model of `getPendingRecords` from the Kotlin `RecordRepositoryImpl`:
`getRecordsByStatus(SyncStatus.PENDING)`, a plain filter (the DAO query has
no ORDER BY). -/
def ktGetPendingRecords (store : Store) : Store :=
  store.filter fun r => r.syncStatus == .PENDING

/-- Outcome of the `apiService.createPost` call inside the Kotlin
`RecordRepositoryImpl.syncRecord`: a response, a thrown Retrofit
`HttpException` with its status code, a thrown `IOException`, or any other
exception. -/
inductive KtSyncOutcome where
  | ok (resp : PostResponseDTO)
  | httpExc (code : Nat) (msg : String)
  | ioExc (msg : String)
  | otherExc (msg : String)
deriving DecidableEq, Repr

/-- The permanence test in the Kotlin `syncRecord` catch block:
`HttpException` with code in `400..499` is permanent, `IOException` and
everything else is not. -/
def ktIsPermanent : KtSyncOutcome → Bool
  | .httpExc code _ => 400 ≤ code && code ≤ 499
  | _ => false

/-- The sequence of `syncStatus` values persisted by one call of the Kotlin
`RecordRepositoryImpl.syncRecord`, in write order: nothing when the record is
already `SYNCED`; otherwise `SYNCING` is persisted first (before
`apiService.createPost` is invoked), then the outcome status. -/
def ktSyncRecordWrites (outcome : KtSyncOutcome) (e : RecordEntity) :
    List SyncStatus :=
  if e.syncStatus == .SYNCED then []
  else
    .SYNCING ::
      match outcome with
      | .ok _ => [.SYNCED]
      | o => [if ktIsPermanent o then .FAILED else .PENDING]

/-- One engine operation on the store: record creation, a sync pass, or the
retry-failed operation. -/
inductive EngineOp where
  | create (uuid : String) (now : Nat) (title body : String)
  | pass (now : Nat) (outcomes : String → ApiOutcome)
  | retryFailed (nowRequeue nowPass : Nat) (outcomes : String → ApiOutcome)

/-- Apply one engine operation to the store. -/
def applyOp (store : Store) : EngineOp → Store
  | .create uuid now title body => (createRecord uuid now title body store).1
  | .pass now outcomes => syncPass now outcomes store
  | .retryFailed n1 n2 outcomes => retryFailedSyncs n1 n2 outcomes store

/-- Run a sequence of engine operations. -/
def runOps (store : Store) (ops : List EngineOp) : Store :=
  ops.foldl applyOp store

/-- The write-once content of a record: id, title, body, creation time. -/
def recordKey (e : RecordEntity) : String × String × String × Nat :=
  (e.id, e.title, e.body, e.createdAt)

/-- Pointwise invariant: a record carries a `remoteId` only while `SYNCED`. -/
def RemoteIdOnlyWhenSynced (e : RecordEntity) : Prop :=
  e.remoteId.isSome = true → e.syncStatus = .SYNCED

lemma syncRecordEntity_remoteId_inv (now : Nat) (oc : ApiOutcome)
    (e : RecordEntity) (h : RemoteIdOnlyWhenSynced e) :
    RemoteIdOnlyWhenSynced (syncRecordEntity now oc e) := by
  unfold syncRecordEntity
  by_cases hsc : shortCircuitsSynced e = true
  · simpa [hsc] using h
  · simp only [Bool.not_eq_true] at hsc
    cases oc with
    | ok resp =>
        intro _
        simp [hsc, mergePostResponse]
    | apiErr err =>
        intro hcontra
        simp [hsc, updateSyncStatusFields, Option.isSome] at hcontra
    | otherErr msg =>
        intro hcontra
        simp [hsc, updateSyncStatusFields, Option.isSome] at hcontra

lemma foldl_updateById_forall {P : RecordEntity → Prop}
    {g : RecordEntity → RecordEntity → RecordEntity}
    (hg : ∀ e r, P r → P (g e r)) :
    ∀ (es : List RecordEntity) (store : Store), (∀ r ∈ store, P r) →
      ∀ r ∈ es.foldl (fun st e => updateById st e.id (g e)) store, P r := by
  intro es
  induction es with
  | nil => intro store h r hr; exact h r hr
  | cons e es ih =>
      intro store h r hr
      refine ih (updateById store e.id (g e)) ?_ r hr
      intro x hx
      simp only [updateById, List.mem_map] at hx
      obtain ⟨y, hy, rfl⟩ := hx
      by_cases hid : y.id = e.id
      · simpa [hid] using hg e y (h y hy)
      · simpa [hid] using h y hy

lemma syncPass_remoteId_inv (now : Nat) (outcomes : String → ApiOutcome)
    (store : Store) (h : ∀ r ∈ store, RemoteIdOnlyWhenSynced r) :
    ∀ r ∈ syncPass now outcomes store, RemoteIdOnlyWhenSynced r :=
  foldl_updateById_forall
    (fun e r hr => syncRecordEntity_remoteId_inv now (outcomes e.id) r hr)
    (getRecordsByStatus .PENDING store) store h

lemma requeueFailed_remoteId_inv (now : Nat) (store : Store)
    (h : ∀ r ∈ store, RemoteIdOnlyWhenSynced r) :
    ∀ r ∈ requeueFailed now store, RemoteIdOnlyWhenSynced r := by
  refine foldl_updateById_forall ?_ (getRecordsByStatus .FAILED store) store h
  intro _ r _
  intro hcontra
  simp [updateSyncStatusFields, Option.isSome] at hcontra

lemma mem_createRecord_fst {uuid : String} {now : Nat} {title body : String}
    {store : Store} {r : RecordEntity}
    (hr : r ∈ (createRecord uuid now title body store).1) :
    r ∈ store ∨ r = newRecordEntity uuid now title body := by
  unfold createRecord at hr
  cases hmsg : validateRecordInput title body with
  | none =>
      rw [hmsg] at hr
      by_cases hdup : (store.any fun r => r.id == uuid) = true
      · simp only [hdup, if_true] at hr
        exact Or.inl hr
      · simp only [Bool.not_eq_true] at hdup
        simp only [hdup, Bool.false_eq_true, if_false, List.mem_append,
          List.mem_singleton] at hr
        rcases hr with hr | hr
        · exact Or.inl hr
        · exact Or.inr hr
  | some msg =>
      rw [hmsg] at hr
      exact Or.inl hr

lemma applyOp_remoteId_inv (store : Store) (op : EngineOp)
    (h : ∀ r ∈ store, RemoteIdOnlyWhenSynced r) :
    ∀ r ∈ applyOp store op, RemoteIdOnlyWhenSynced r := by
  cases op with
  | create uuid now title body =>
      intro r hr
      have hr' : r ∈ (createRecord uuid now title body store).1 := hr
      rcases mem_createRecord_fst hr' with hmem | hnew
      · exact h r hmem
      · subst hnew
        intro hcontra
        simp [newRecordEntity, Option.isSome] at hcontra
  | pass now outcomes => exact syncPass_remoteId_inv now outcomes store h
  | retryFailed n1 n2 outcomes =>
      exact syncPass_remoteId_inv n2 outcomes _
        (requeueFailed_remoteId_inv n1 store h)

lemma runOps_remoteId_inv (ops : List EngineOp) :
    ∀ (store : Store), (∀ r ∈ store, RemoteIdOnlyWhenSynced r) →
      ∀ r ∈ runOps store ops, RemoteIdOnlyWhenSynced r := by
  induction ops with
  | nil => intro store h r hr; exact h r hr
  | cons op ops ih =>
      intro store h r hr
      exact ih (applyOp store op) (applyOp_remoteId_inv store op h) r hr

/-- Claim C1: for a record the pass actually attempts (the already-synced
guard does not fire), the persisted post-state is determined by the API
outcome — acceptance gives `SYNCED` with the remote id stored and the error
cleared; a 4xx-equivalent client error gives `FAILED` with the message
stored; a transient error (network, timeout, 5xx-equivalent) gives `PENDING`
with the message stored and no `remoteId`. -/
theorem syncRecord_post_state_determined_by_outcome
    (now : Nat) (e : RecordEntity) (resp : PostResponseDTO) (err : ApiError)
    (h : callsSend e = true) :
    ((syncRecordEntity now (.ok resp) e).syncStatus = .SYNCED ∧
      (syncRecordEntity now (.ok resp) e).remoteId = some resp.id ∧
      (syncRecordEntity now (.ok resp) e).syncError = none) ∧
    (err.type = .CLIENT_ERROR →
      (syncRecordEntity now (.apiErr err) e).syncStatus = .FAILED ∧
      (syncRecordEntity now (.apiErr err) e).syncError = some err.message) ∧
    ((err.type = .NETWORK_ERROR ∨ err.type = .TIMEOUT ∨
        err.type = .SERVER_ERROR) →
      (syncRecordEntity now (.apiErr err) e).syncStatus = .PENDING ∧
      (syncRecordEntity now (.apiErr err) e).syncError = some err.message ∧
      (syncRecordEntity now (.apiErr err) e).remoteId = none) := by
  have hsc : shortCircuitsSynced e = false := by
    simpa [callsSend] using h
  refine ⟨?_, ?_, ?_⟩
  · simp [syncRecordEntity, hsc, mergePostResponse]
  · intro htype
    have hperm : isPermanentError err = true := by
      simp [isPermanentError, htype]
    simp [syncRecordEntity, hsc, hperm, updateSyncStatusFields]
  · intro htype
    have hperm : isPermanentError err = false := by
      rcases htype with ht | ht | ht <;> simp [isPermanentError, ht]
    simp [syncRecordEntity, hsc, hperm, updateSyncStatusFields]

theorem syncRecord_post_state_witness :
    ((syncRecordEntity 7 (.ok ⟨101, "t", "b", 1⟩)
        ⟨"r1", "t", "b", 0, .PENDING, none, none, none⟩).syncStatus =
        .SYNCED ∧
      (syncRecordEntity 7 (.ok ⟨101, "t", "b", 1⟩)
        ⟨"r1", "t", "b", 0, .PENDING, none, none, none⟩).remoteId =
        some 101 ∧
      (syncRecordEntity 7 (.ok ⟨101, "t", "b", 1⟩)
        ⟨"r1", "t", "b", 0, .PENDING, none, none, none⟩).syncError =
        none) ∧
    ((⟨.CLIENT_ERROR, some 400, "Client error: 400"⟩ : ApiError).type =
        .CLIENT_ERROR →
      (syncRecordEntity 7
        (.apiErr ⟨.CLIENT_ERROR, some 400, "Client error: 400"⟩)
        ⟨"r1", "t", "b", 0, .PENDING, none, none, none⟩).syncStatus =
        .FAILED ∧
      (syncRecordEntity 7
        (.apiErr ⟨.CLIENT_ERROR, some 400, "Client error: 400"⟩)
        ⟨"r1", "t", "b", 0, .PENDING, none, none, none⟩).syncError =
        some "Client error: 400") ∧
    ((⟨.CLIENT_ERROR, some 400, "Client error: 400"⟩ : ApiError).type =
        .NETWORK_ERROR ∨
      (⟨.CLIENT_ERROR, some 400, "Client error: 400"⟩ : ApiError).type =
        .TIMEOUT ∨
      (⟨.CLIENT_ERROR, some 400, "Client error: 400"⟩ : ApiError).type =
        .SERVER_ERROR →
      (syncRecordEntity 7
        (.apiErr ⟨.CLIENT_ERROR, some 400, "Client error: 400"⟩)
        ⟨"r1", "t", "b", 0, .PENDING, none, none, none⟩).syncStatus =
        .PENDING ∧
      (syncRecordEntity 7
        (.apiErr ⟨.CLIENT_ERROR, some 400, "Client error: 400"⟩)
        ⟨"r1", "t", "b", 0, .PENDING, none, none, none⟩).syncError =
        some "Client error: 400" ∧
      (syncRecordEntity 7
        (.apiErr ⟨.CLIENT_ERROR, some 400, "Client error: 400"⟩)
        ⟨"r1", "t", "b", 0, .PENDING, none, none, none⟩).remoteId =
        none) :=
  syncRecord_post_state_determined_by_outcome 7
    ⟨"r1", "t", "b", 0, .PENDING, none, none, none⟩
    ⟨101, "t", "b", 1⟩
    ⟨.CLIENT_ERROR, some 400, "Client error: 400"⟩ (by decide)

/-- Claim C2, counterexample: a record whose `remoteId` is set but whose
status is `PENDING` is not short-circuited — the guard in `syncRecord`
requires `syncStatus === 'SYNCED'` as well, so the pass reaches the
`api.createPost` call for it (second conjunct: a pass over such a store
records the outcome of that remote call instead of short-circuiting to
`SYNCED`). -/
theorem remoteId_alone_does_not_short_circuit :
    callsSend ⟨"r1", "t", "b", 0, .PENDING, some 5, none, none⟩ = true ∧
    syncPass 9 (fun _ => .apiErr ⟨.SERVER_ERROR, some 500, "Server error: 500"⟩)
      [⟨"r1", "t", "b", 0, .PENDING, some 5, none, none⟩] =
      [⟨"r1", "t", "b", 0, .PENDING, none, some 9,
          some "Server error: 500"⟩] := by
  decide

/-- Claim C2, amended: the short-circuit fires only when `syncStatus` is
`SYNCED` and `remoteId` is present; but every engine operation preserves the
invariant that `remoteId` is present only on `SYNCED` records, so in every
store the engine itself can produce, a record whose `remoteId` is set is
`SYNCED` and the pass never reaches the remote call for it. -/
theorem engine_never_resends_after_remoteId_set
    (store : Store) (ops : List EngineOp)
    (h : ∀ r ∈ store, r.remoteId.isSome = true → r.syncStatus = .SYNCED) :
    ∀ r ∈ runOps store ops, r.remoteId.isSome = true →
      r.syncStatus = .SYNCED ∧ callsSend r = false := by
  intro r hr hsome
  have hsynced : r.syncStatus = .SYNCED :=
    runOps_remoteId_inv ops store h r hr hsome
  refine ⟨hsynced, ?_⟩
  simp [callsSend, shortCircuitsSynced, hsynced, hsome]

theorem engine_never_resends_witness :
    (⟨"r1", "t", "b", 0, .SYNCED, some 101, some 5, none⟩ :
        RecordEntity).syncStatus = .SYNCED ∧
    callsSend ⟨"r1", "t", "b", 0, .SYNCED, some 101, some 5, none⟩ = false :=
  engine_never_resends_after_remoteId_set
    [⟨"r1", "t", "b", 0, .PENDING, none, none, none⟩]
    [.pass 5 (fun _ => .ok ⟨101, "t", "b", 1⟩)]
    (by decide)
    ⟨"r1", "t", "b", 0, .SYNCED, some 101, some 5, none⟩
    (by decide) (by decide)

/-- Claim C3: a record stored as `SYNCING` (reachable in the Android variant,
whose `syncRecord` persists `SYNCING` before the remote call) survives the
startup path untouched — `initDatabase` only issues
`CREATE TABLE IF NOT EXISTS` / `CREATE INDEX IF NOT EXISTS` and resets
nothing — and neither sync entry point ever selects it again (both query for
`PENDING`); the TypeScript schema cannot even store `SYNCING`. -/
theorem no_startup_recovery_for_syncing_record :
    initDatabase [⟨"r1", "t", "b", 0, .SYNCING, none, some 3, none⟩] =
      [⟨"r1", "t", "b", 0, .SYNCING, none, some 3, none⟩] ∧
    (initDatabase
        [⟨"r1", "t", "b", 0, .SYNCING, none, some 3, none⟩]).map
      RecordEntity.syncStatus = [.SYNCING] ∧
    ktGetPendingRecords
      (initDatabase [⟨"r1", "t", "b", 0, .SYNCING, none, some 3, none⟩]) =
      [] ∧
    getRecordsByStatus .PENDING
      (initDatabase [⟨"r1", "t", "b", 0, .SYNCING, none, some 3, none⟩]) =
      [] ∧
    tsSchemaAllows .SYNCING = false := by
  decide

/-- Claim C4: the sync pass computes no exponential backoff at all — the only
wait in `syncPendingRecords` is the fixed 100 ms inter-record pause, which
differs from the specified `min(1s * 2^attemptCount, 30s)` at every attempt
count (the code does not even track an attempt count). -/
theorem no_backoff_computed_fixed_delay :
    syncPassInterRecordDelayMs = 100 ∧
    ∀ n : Nat, syncPassInterRecordDelayMs < backoffDelayMs n := by
  refine ⟨rfl, fun n => ?_⟩
  have h2 : (1 : Nat) ≤ 2 ^ n := Nat.one_le_two_pow
  have h1000 : (1000 : Nat) ≤ 1000 * 2 ^ n := by
    calc (1000 : Nat) = 1000 * 1 := by norm_num
    _ ≤ 1000 * 2 ^ n := Nat.mul_le_mul_left 1000 h2
  simp only [backoffDelayMs, syncPassInterRecordDelayMs]
  omega

/-- Claim C6, counterexample: the TypeScript `syncRecord` performs exactly one
durable write per attempt — on acceptance the record goes straight from
`PENDING` to `SYNCED` with no intervening persisted `SYNCING` state (and the
TypeScript schema rejects `SYNCING` outright). -/
theorem ts_sync_persists_no_syncing :
    tsSyncRecordWrites (.ok ⟨101, "t", "b", 1⟩)
      ⟨"r1", "t", "b", 0, .PENDING, none, none, none⟩ = [.SYNCED] ∧
    (⟨"r1", "t", "b", 0, .PENDING, none, none, none⟩ :
        RecordEntity).syncStatus = .PENDING ∧
    (syncRecordEntity 7 (.ok ⟨101, "t", "b", 1⟩)
      ⟨"r1", "t", "b", 0, .PENDING, none, none, none⟩).syncStatus =
      .SYNCED ∧
    (.SYNCING ∉ tsSyncRecordWrites (.ok ⟨101, "t", "b", 1⟩)
      ⟨"r1", "t", "b", 0, .PENDING, none, none, none⟩) ∧
    tsSchemaAllows .SYNCING = false := by
  decide

/-- Claim C6, amended: in the Android variant only, every attempted sync
(record not already `SYNCED`) persists `SYNCING` as its first durable write,
before the outcome of the remote call is written; the TypeScript variant has
no `SYNCING` state and writes the outcome status directly. -/
theorem kt_sync_persists_syncing_before_outcome
    (e : RecordEntity) (o : KtSyncOutcome) (h : e.syncStatus ≠ .SYNCED) :
    (ktSyncRecordWrites o e).head? = some .SYNCING := by
  have hb : (e.syncStatus == .SYNCED) = false := by
    simpa using h
  simp [ktSyncRecordWrites, hb]

theorem kt_sync_persists_syncing_witness :
    (ktSyncRecordWrites (.ok ⟨101, "t", "b", 1⟩)
      ⟨"r1", "t", "b", 0, .PENDING, none, none, none⟩).head? =
      some .SYNCING :=
  kt_sync_persists_syncing_before_outcome
    ⟨"r1", "t", "b", 0, .PENDING, none, none, none⟩
    (.ok ⟨101, "t", "b", 1⟩) (by decide)

lemma mem_getRecordsByStatus {status : SyncStatus} {store : Store}
    {r : RecordEntity} :
    r ∈ getRecordsByStatus status store ↔
      r ∈ store ∧ r.syncStatus = status := by
  simp [getRecordsByStatus, List.mem_insertionSort, List.mem_filter]

lemma nodup_ids_getRecordsByStatus {status : SyncStatus} {store : Store}
    (hn : (store.map RecordEntity.id).Nodup) :
    ((getRecordsByStatus status store).map RecordEntity.id).Nodup := by
  have hperm :
      (getRecordsByStatus status store).Perm
        (store.filter fun r => r.syncStatus == status) :=
    List.perm_insertionSort _ _
  refine (hperm.map RecordEntity.id).nodup_iff.mpr ?_
  exact hn.sublist ((List.filter_sublist store).map RecordEntity.id)

lemma unique_of_nodup_ids {store : Store} {r : RecordEntity}
    (hn : (store.map RecordEntity.id).Nodup) (hr : r ∈ store) :
    ∀ x ∈ store, x.id = r.id → x = r :=
  fun x hx hxy => List.inj_on_of_nodup_map hn hx hr hxy

lemma mem_updateById_of_ne {store : Store} {r : RecordEntity} {i : String}
    {f : RecordEntity → RecordEntity} (hr : r ∈ store) (hne : r.id ≠ i) :
    r ∈ updateById store i f := by
  have h := List.mem_map_of_mem (fun x => if x.id = i then f x else x) hr
  simpa [updateById, hne] using h

lemma mem_foldl_updateById_of_ne
    {g : RecordEntity → RecordEntity → RecordEntity} :
    ∀ (es : List RecordEntity) (store : Store) (r : RecordEntity),
      r ∈ store → (∀ e ∈ es, e.id ≠ r.id) →
      r ∈ es.foldl (fun st e => updateById st e.id (g e)) store := by
  intro es
  induction es with
  | nil => intro store r hr _; exact hr
  | cons e es ih =>
      intro store r hr hne
      have h1 : r ∈ updateById store e.id (g e) :=
        mem_updateById_of_ne hr
          (fun hc => hne e (List.mem_cons_self e es) hc.symm)
      exact ih _ r h1 (fun x hx => hne x (List.mem_cons_of_mem e hx))

lemma foldl_updateById_self {g : RecordEntity → RecordEntity}
    (hid : ∀ x, (g x).id = x.id) :
    ∀ (es : List RecordEntity) (store : Store) (r : RecordEntity),
      r ∈ store →
      (∀ x ∈ store, x.id = r.id → x = r) →
      (∃ e ∈ es, e.id = r.id) →
      (es.map RecordEntity.id).Nodup →
      g r ∈ es.foldl (fun st e => updateById st e.id g) store := by
  intro es
  induction es with
  | nil =>
      intro store r _ _ hex _
      obtain ⟨e, he, _⟩ := hex
      exact absurd he (List.not_mem_nil e)
  | cons e es ih =>
      intro store r hr huniq hex hnodup
      rw [List.map_cons, List.nodup_cons] at hnodup
      by_cases he : e.id = r.id
      · have hgr : g r ∈ updateById store e.id g := by
          have h := List.mem_map_of_mem
            (fun x => if x.id = e.id then g x else x) hr
          simpa [updateById, he.symm] using h
        refine mem_foldl_updateById_of_ne (g := fun _ => g) es _ (g r) hgr ?_
        intro x hx hc
        exact hnodup.1 (by
          rw [hid r] at hc
          rw [← he] at hc
          exact hc ▸ List.mem_map_of_mem RecordEntity.id hx)
      · have hr' : r ∈ updateById store e.id g :=
          mem_updateById_of_ne hr (fun hc => he hc.symm)
        have huniq' : ∀ x ∈ updateById store e.id g, x.id = r.id → x = r := by
          intro x hx hxid
          simp only [updateById, List.mem_map] at hx
          obtain ⟨y, hy, rfl⟩ := hx
          by_cases hyid : y.id = e.id
          · rw [if_pos hyid] at hxid ⊢
            rw [hid y] at hxid
            exact absurd (hyid ▸ hxid ▸ rfl) (Ne.symm (hxid ▸ he))
          · rw [if_neg hyid] at hxid ⊢
            exact huniq y hy hxid
        have hex' : ∃ x ∈ es, x.id = r.id := by
          obtain ⟨x, hx, hxid⟩ := hex
          rcases List.mem_cons.mp hx with rfl | hx'
          · exact absurd hxid he
          · exact ⟨x, hx', hxid⟩
        exact ih _ r hr' huniq' hex' hnodup.2

/-- Claim C5: terminal states are sticky — a `SYNCED` record is untouched by
a plain sync pass (its whole row, hence status and `remoteId`, is unchanged);
a `FAILED` record is untouched by a plain sync pass, and only the explicit
retry-requeue step of `retryFailedSyncs` moves it, namely back to
`PENDING`. -/
theorem terminal_states_sticky
    (now : Nat) (outcomes : String → ApiOutcome) (store : Store)
    (hn : (store.map RecordEntity.id).Nodup)
    (r : RecordEntity) (hr : r ∈ store) :
    (r.syncStatus = .SYNCED → r ∈ syncPass now outcomes store) ∧
    (r.syncStatus = .FAILED →
      r ∈ syncPass now outcomes store ∧
      updateSyncStatusFields now .PENDING none none r ∈
        requeueFailed now store ∧
      (updateSyncStatusFields now .PENDING none none r).syncStatus =
        .PENDING) := by
  have huniq := unique_of_nodup_ids hn hr
  have hnotpending : ∀ s : SyncStatus, r.syncStatus = s → s ≠ .PENDING →
      ∀ e ∈ getRecordsByStatus .PENDING store, e.id ≠ r.id := by
    intro s hs hsne e he hc
    have he' := mem_getRecordsByStatus.mp he
    have : e = r := huniq e he'.1 hc
    rw [this] at he'
    exact hsne (hs ▸ he'.2)
  constructor
  · intro hsynced
    exact mem_foldl_updateById_of_ne _ store r hr
      (hnotpending _ hsynced (by simp))
  · intro hfailed
    refine ⟨mem_foldl_updateById_of_ne _ store r hr
      (hnotpending _ hfailed (by simp)), ?_, rfl⟩
    refine foldl_updateById_self
      (g := updateSyncStatusFields now .PENDING none none)
      (fun x => rfl) _ store r hr huniq
      ⟨r, mem_getRecordsByStatus.mpr ⟨hr, hfailed⟩, rfl⟩
      (nodup_ids_getRecordsByStatus hn)

theorem terminal_states_sticky_witness :
    (((⟨"r2", "t2", "b2", 1, .FAILED, none, some 3,
          some "Client error: 400"⟩ : RecordEntity).syncStatus = .SYNCED →
        (⟨"r2", "t2", "b2", 1, .FAILED, none, some 3,
          some "Client error: 400"⟩ : RecordEntity) ∈
          syncPass 9 (fun _ => .ok ⟨101, "t", "b", 1⟩)
            [⟨"r1", "t1", "b1", 0, .SYNCED, some 7, some 2, none⟩,
              ⟨"r2", "t2", "b2", 1, .FAILED, none, some 3,
                some "Client error: 400"⟩]) ∧
      ((⟨"r2", "t2", "b2", 1, .FAILED, none, some 3,
          some "Client error: 400"⟩ : RecordEntity).syncStatus = .FAILED →
        (⟨"r2", "t2", "b2", 1, .FAILED, none, some 3,
          some "Client error: 400"⟩ : RecordEntity) ∈
          syncPass 9 (fun _ => .ok ⟨101, "t", "b", 1⟩)
            [⟨"r1", "t1", "b1", 0, .SYNCED, some 7, some 2, none⟩,
              ⟨"r2", "t2", "b2", 1, .FAILED, none, some 3,
                some "Client error: 400"⟩] ∧
        updateSyncStatusFields 9 .PENDING none none
            ⟨"r2", "t2", "b2", 1, .FAILED, none, some 3,
              some "Client error: 400"⟩ ∈
          requeueFailed 9
            [⟨"r1", "t1", "b1", 0, .SYNCED, some 7, some 2, none⟩,
              ⟨"r2", "t2", "b2", 1, .FAILED, none, some 3,
                some "Client error: 400"⟩] ∧
        (updateSyncStatusFields 9 .PENDING none none
            ⟨"r2", "t2", "b2", 1, .FAILED, none, some 3,
              some "Client error: 400"⟩).syncStatus = .PENDING)) :=
  terminal_states_sticky 9 (fun _ => .ok ⟨101, "t", "b", 1⟩)
    [⟨"r1", "t1", "b1", 0, .SYNCED, some 7, some 2, none⟩,
      ⟨"r2", "t2", "b2", 1, .FAILED, none, some 3,
        some "Client error: 400"⟩]
    (by decide)
    ⟨"r2", "t2", "b2", 1, .FAILED, none, some 3, some "Client error: 400"⟩
    (by decide)

/-- Claim C10: the requeue loop of `retryFailedSyncs` rewrites every `FAILED`
record before any remote attempt is made, and the rewrite overwrites more
than the status: status becomes `PENDING`, `syncError` and `remoteId` become
null, and `lastSyncAttempt` is stamped with the current time, while the
record content is untouched.  In particular the stored failure message is
erased by the requeue itself. -/
theorem requeue_overwrites_error_and_remoteId
    (now : Nat) (store : Store)
    (hn : (store.map RecordEntity.id).Nodup)
    (r : RecordEntity) (hr : r ∈ store) (hf : r.syncStatus = .FAILED) :
    updateSyncStatusFields now .PENDING none none r ∈
      requeueFailed now store ∧
    (updateSyncStatusFields now .PENDING none none r).syncStatus =
      .PENDING ∧
    (updateSyncStatusFields now .PENDING none none r).syncError = none ∧
    (updateSyncStatusFields now .PENDING none none r).remoteId = none ∧
    (updateSyncStatusFields now .PENDING none none r).lastSyncAttempt =
      some now ∧
    (updateSyncStatusFields now .PENDING none none r).id = r.id ∧
    (updateSyncStatusFields now .PENDING none none r).title = r.title ∧
    (updateSyncStatusFields now .PENDING none none r).body = r.body ∧
    (updateSyncStatusFields now .PENDING none none r).createdAt =
      r.createdAt := by
  refine ⟨?_, rfl, rfl, rfl, rfl, rfl, rfl, rfl, rfl⟩
  exact foldl_updateById_self
    (g := updateSyncStatusFields now .PENDING none none)
    (fun x => rfl) _ store r hr
    (unique_of_nodup_ids hn hr)
    ⟨r, mem_getRecordsByStatus.mpr ⟨hr, hf⟩, rfl⟩
    (nodup_ids_getRecordsByStatus hn)

theorem requeue_overwrites_witness :
    updateSyncStatusFields 9 .PENDING none none
        ⟨"r2", "t2", "b2", 1, .FAILED, none, some 3,
          some "Client error: 400"⟩ ∈
      requeueFailed 9
        [⟨"r2", "t2", "b2", 1, .FAILED, none, some 3,
          some "Client error: 400"⟩] ∧
    (updateSyncStatusFields 9 .PENDING none none
        ⟨"r2", "t2", "b2", 1, .FAILED, none, some 3,
          some "Client error: 400"⟩).syncStatus = .PENDING ∧
    (updateSyncStatusFields 9 .PENDING none none
        ⟨"r2", "t2", "b2", 1, .FAILED, none, some 3,
          some "Client error: 400"⟩).syncError = none ∧
    (updateSyncStatusFields 9 .PENDING none none
        ⟨"r2", "t2", "b2", 1, .FAILED, none, some 3,
          some "Client error: 400"⟩).remoteId = none ∧
    (updateSyncStatusFields 9 .PENDING none none
        ⟨"r2", "t2", "b2", 1, .FAILED, none, some 3,
          some "Client error: 400"⟩).lastSyncAttempt = some 9 ∧
    (updateSyncStatusFields 9 .PENDING none none
        ⟨"r2", "t2", "b2", 1, .FAILED, none, some 3,
          some "Client error: 400"⟩).id = "r2" ∧
    (updateSyncStatusFields 9 .PENDING none none
        ⟨"r2", "t2", "b2", 1, .FAILED, none, some 3,
          some "Client error: 400"⟩).title = "t2" ∧
    (updateSyncStatusFields 9 .PENDING none none
        ⟨"r2", "t2", "b2", 1, .FAILED, none, some 3,
          some "Client error: 400"⟩).body = "b2" ∧
    (updateSyncStatusFields 9 .PENDING none none
        ⟨"r2", "t2", "b2", 1, .FAILED, none, some 3,
          some "Client error: 400"⟩).createdAt = 1 :=
  requeue_overwrites_error_and_remoteId 9
    [⟨"r2", "t2", "b2", 1, .FAILED, none, some 3, some "Client error: 400"⟩]
    (by decide)
    ⟨"r2", "t2", "b2", 1, .FAILED, none, some 3, some "Client error: 400"⟩
    (by decide) (by decide)

lemma recordKey_syncRecordEntity (now : Nat) (oc : ApiOutcome)
    (e : RecordEntity) :
    recordKey (syncRecordEntity now oc e) = recordKey e := by
  unfold syncRecordEntity
  by_cases hsc : shortCircuitsSynced e = true
  · simp [hsc]
  · simp only [Bool.not_eq_true] at hsc
    cases oc <;>
      simp [hsc, mergePostResponse, updateSyncStatusFields, recordKey]

lemma map_recordKey_updateById (store : Store) (i : String)
    (f : RecordEntity → RecordEntity)
    (hf : ∀ x, recordKey (f x) = recordKey x) :
    (updateById store i f).map recordKey = store.map recordKey := by
  unfold updateById
  rw [List.map_map]
  refine List.map_congr_left ?_
  intro a _
  by_cases h : a.id = i <;> simp [h, hf]

lemma map_recordKey_foldl_updateById
    {g : RecordEntity → RecordEntity → RecordEntity}
    (hg : ∀ e x, recordKey (g e x) = recordKey x) :
    ∀ (es : List RecordEntity) (store : Store),
      (es.foldl (fun st e => updateById st e.id (g e)) store).map recordKey =
        store.map recordKey := by
  intro es
  induction es with
  | nil => intro store; rfl
  | cons e es ih =>
      intro store
      rw [List.foldl_cons, ih, map_recordKey_updateById _ _ _ (hg e)]

lemma map_recordKey_syncPass (now : Nat) (outcomes : String → ApiOutcome)
    (store : Store) :
    (syncPass now outcomes store).map recordKey = store.map recordKey :=
  map_recordKey_foldl_updateById
    (fun e x => recordKey_syncRecordEntity now (outcomes e.id) x) _ _

lemma map_recordKey_requeueFailed (now : Nat) (store : Store) :
    (requeueFailed now store).map recordKey = store.map recordKey :=
  map_recordKey_foldl_updateById
    (g := fun _ => updateSyncStatusFields now .PENDING none none)
    (fun _ _ => rfl) _ _

lemma map_recordKey_applyOp (store : Store) (op : EngineOp) :
    ∃ added,
      (applyOp store op).map recordKey = store.map recordKey ++ added := by
  cases op with
  | create uuid now title body =>
      show ∃ added,
        ((createRecord uuid now title body store).1).map recordKey =
          store.map recordKey ++ added
      unfold createRecord
      cases hv : validateRecordInput title body with
      | some msg => exact ⟨[], by simp⟩
      | none =>
          by_cases hdup : (store.any fun r => r.id == uuid) = true
          · exact ⟨[], by simp [hdup]⟩
          · simp only [Bool.not_eq_true] at hdup
            exact ⟨[recordKey (newRecordEntity uuid now title body)],
              by simp [hdup]⟩
  | pass now outcomes =>
      exact ⟨[], by simp [applyOp, map_recordKey_syncPass]⟩
  | retryFailed n1 n2 outcomes =>
      refine ⟨[], ?_⟩
      show (retryFailedSyncs n1 n2 outcomes store).map recordKey =
        store.map recordKey ++ []
      unfold retryFailedSyncs
      rw [map_recordKey_syncPass, map_recordKey_requeueFailed,
        List.append_nil]

lemma map_recordKey_runOps :
    ∀ (ops : List EngineOp) (store : Store),
      ∃ added,
        (runOps store ops).map recordKey = store.map recordKey ++ added := by
  intro ops
  induction ops with
  | nil => intro store; exact ⟨[], by simp [runOps]⟩
  | cons op ops ih =>
      intro store
      obtain ⟨t1, h1⟩ := map_recordKey_applyOp store op
      obtain ⟨t2, h2⟩ := ih (applyOp store op)
      refine ⟨t1 ++ t2, ?_⟩
      show (runOps (applyOp store op) ops).map recordKey =
        store.map recordKey ++ (t1 ++ t2)
      rw [h2, h1, List.append_assoc]

/-- Claim C8: no sync-engine operation modifies a stored record's id, title,
body or creation time — a pass and a retry-failed run leave the list of
(id, title, body, createdAt) tuples exactly as it was, and any sequence of
engine operations (creations included) only ever appends to that list, so
every already-created record stays present with its original content. -/
theorem sync_ops_preserve_content (store : Store) :
    (∀ (now : Nat) (outcomes : String → ApiOutcome),
      (syncPass now outcomes store).map recordKey = store.map recordKey) ∧
    (∀ (n1 n2 : Nat) (outcomes : String → ApiOutcome),
      (retryFailedSyncs n1 n2 outcomes store).map recordKey =
        store.map recordKey) ∧
    (∀ ops : List EngineOp, ∃ added,
      (runOps store ops).map recordKey = store.map recordKey ++ added) := by
  refine ⟨fun now outcomes => map_recordKey_syncPass now outcomes store,
    fun n1 n2 outcomes => ?_,
    fun ops => map_recordKey_runOps ops store⟩
  unfold retryFailedSyncs
  rw [map_recordKey_syncPass, map_recordKey_requeueFailed]

lemma validateRecordInput_isSome_of_over {title body : String}
    (h : 200 < (jsTrim title).length ∨ 5000 < (jsTrim body).length) :
    ∃ msg, validateRecordInput title body = some msg := by
  unfold validateRecordInput
  split
  · exact ⟨_, rfl⟩
  · split
    · exact ⟨_, rfl⟩
    · split
      · exact ⟨_, rfl⟩
      · split
        · exact ⟨_, rfl⟩
        · exfalso
          rcases h with h | h <;> omega

lemma validateRecordInput_none_bounds {title body : String}
    (hv : validateRecordInput title body = none) :
    (jsTrim title).length ≤ 200 ∧ (jsTrim body).length ≤ 5000 := by
  unfold validateRecordInput at hv
  split at hv
  · exact absurd hv (by simp)
  · split at hv
    · exact absurd hv (by simp)
    · split at hv
      · exact absurd hv (by simp)
      · split at hv
        · exact absurd hv (by simp)
        · constructor <;> omega

/-- Claim C7: `createRecord` rejects input that violates the creation bounds
(title over 200 characters or body over 5000, measured on the trimmed content
that would be stored) with a `ValidationError` result and no store write; a
record that is created is stored with status `PENDING` and content within
bounds; and the sync step is oblivious to the content — it maps a record
with any title/body exactly as it maps the original, so no re-validation ever
happens after creation. -/
theorem createRecord_validates_once :
    (∀ (uuid : String) (now : Nat) (title body : String) (store : Store),
      (200 < (jsTrim title).length ∨ 5000 < (jsTrim body).length) →
      (createRecord uuid now title body store).1 = store ∧
      (createRecord uuid now title body store).2.isErr = true) ∧
    (∀ (uuid : String) (now : Nat) (title body : String) (store : Store),
      validateRecordInput title body = none →
      (store.any fun r => r.id == uuid) = false →
      (createRecord uuid now title body store).1 =
        store ++ [newRecordEntity uuid now title body] ∧
      (createRecord uuid now title body store).2 =
        .ok (newRecordEntity uuid now title body) ∧
      (newRecordEntity uuid now title body).syncStatus = .PENDING ∧
      (newRecordEntity uuid now title body).title.length ≤ 200 ∧
      (newRecordEntity uuid now title body).body.length ≤ 5000) ∧
    (∀ (now : Nat) (oc : ApiOutcome) (e : RecordEntity) (t b : String),
      syncRecordEntity now oc { e with title := t, body := b } =
        { syncRecordEntity now oc e with title := t, body := b }) := by
  refine ⟨?_, ?_, ?_⟩
  · intro uuid now title body store h
    obtain ⟨msg, hv⟩ := validateRecordInput_isSome_of_over h
    unfold createRecord
    rw [hv]
    exact ⟨by trivial, by trivial⟩
  · intro uuid now title body store hv hdup
    have hb := validateRecordInput_none_bounds hv
    unfold createRecord
    rw [hv]
    simp only [hdup, Bool.false_eq_true, if_false]
    exact ⟨trivial, trivial, rfl, hb.1, hb.2⟩
  · intro now oc e t b
    cases oc <;>
      by_cases hsc : (e.syncStatus == .SYNCED && e.remoteId.isSome) = true <;>
        simp [syncRecordEntity, shortCircuitsSynced, mergePostResponse,
          updateSyncStatusFields, hsc]

set_option maxRecDepth 8000 in
theorem createRecord_validates_once_witness :
    (createRecord "u1" 0 (String.mk (List.replicate 201 'a')) "b" []).1 =
      [] ∧
    (createRecord "u1" 0
      (String.mk (List.replicate 201 'a')) "b" []).2.isErr = true :=
  createRecord_validates_once.1 "u1" 0
    (String.mk (List.replicate 201 'a')) "b" [] (Or.inl (by decide))

example : tsSchemaAllows .SYNCING = false := by decide

example :
    syncRecordEntity 7 (.ok ⟨101, "t", "b", 1⟩)
      ⟨"r1", "t", "b", 0, .PENDING, none, none, none⟩ =
      ⟨"r1", "t", "b", 0, .SYNCED, some 101, some 7, none⟩ := by decide

example :
    syncRecordEntity 7 (.apiErr ⟨.CLIENT_ERROR, some 400, "Client error: 400"⟩)
      ⟨"r1", "t", "b", 0, .PENDING, none, none, none⟩ =
      ⟨"r1", "t", "b", 0, .FAILED, none, some 7, some "Client error: 400"⟩ := by
  decide

end OfflineSync
